import Mathlib

/-!
Verification of the discovery-and-classification pipeline of the Steam
review dashboard (src/steamService.ts, src/ClientApp.tsx).

The TypeScript source is shallowly embedded: strings are lists of
characters, JavaScript numbers that can be NaN are `Option Int` (with
`none` playing the role of NaN, on which every comparison is false),
network calls are replaced by explicit oracles (a function giving each
request its outcome), and thrown exceptions become `Except` values.
-/

/-- JavaScript strings are modelled as lists of characters. -/
abbrev Str := List Char

/-- Embed a Lean string literal into the model. -/
def lit (s : String) : Str := s.data

/-- JavaScript String.prototype.toLowerCase, restricted to ASCII case
mapping (every constant compared against in the source is ASCII or
Chinese, and Chinese has no case). -/
def lowerStr (s : Str) : Str := s.map Char.toLower

/-- Does the string begin with the given pattern?  (Bool version of the
prefix test, used to build the substring tests below.) -/
def leadsWith : Str → Str → Bool
  | [], _ => true
  | _ :: _, [] => false
  | a :: as, b :: bs => a == b && leadsWith as bs

/-- JavaScript String.prototype.includes: does `pat` occur contiguously
inside `s`? -/
def strContains (s pat : Str) : Bool :=
  match s with
  | [] => leadsWith pat []
  | _ :: rest => leadsWith pat s || strContains rest pat

/-- JavaScript String.prototype.endsWith. -/
def trailsWith (s pat : Str) : Bool :=
  leadsWith pat.reverse s.reverse

/-- The test of the regex /[一-龥]/ from verifyDomesticGame:
does the string contain a CJK unified ideograph in that range? -/
def hasChineseChars (s : Str) : Bool :=
  s.any fun c => 0x4e00 ≤ c.val && c.val ≤ 0x9fa5

/-- Line terminators, which the dot of a JavaScript regex (without the
s flag) does not match. -/
def isLineTerm (c : Char) : Bool :=
  c == '\n' || c == '\r' || c.val == 0x2028 || c.val == 0x2029

/-- Helper for `pairSearch`: does the string begin with a run of
non-line-terminator characters followed by `b`?  This is the trailing
part (.*?b) of a /a.*?b/ regex. -/
def gapSearch (b : Str) : Str → Bool
  | [] => leadsWith b []
  | c :: rest => leadsWith b (c :: rest) || (!isLineTerm c && gapSearch b rest)

/-- The test of a JavaScript regex /a.*?b/ where a and b are literal
words: the string contains an occurrence of `a` followed, with no line
terminator in between, by an occurrence of `b`.  (Laziness of .*? does
not affect whether the regex matches.) -/
def pairSearch (a b : Str) : Str → Bool
  | [] => leadsWith a [] && gapSearch b []
  | c :: rest =>
      (leadsWith a (c :: rest) && gapSearch b ((c :: rest).drop a.length)) ||
      pairSearch a b rest

/-- KNOWN_CN_ENTITIES from steamService.ts (known Chinese publishers and
developers, matched as lowercase substrings). -/
def KNOWN_CN_ENTITIES : List Str :=
  [lit "bilibili", lit "gamera", lit "lightning games", lit "yooreka", lit "thermite",
   lit "raytheon", lit "chillyroom", lit "coconut island", lit "martian", lit "giant",
   lit "mihoyo", lit "netease", lit "tencent", lit "game science", lit "playism",
   lit "indieark", lit "sapling", lit "east2west", lit "leiting", lit "youth",
   lit "perfect world", lit "wanmei", lit "x.d. network", lit "xd", lit "hypergryph",
   lit "manjuu", lit "yongshi", lit "sunborn", lit "papergames", lit "kuro",
   lit "hero entertainment", lit "oasis", lit "pixmain", lit "24 entertainment",
   lit "pathea", lit "recreate", lit "pixpil", lit "leenzee", lit "everstone",
   lit "joyone", lit "yixian", lit "astrolabe", lit "2p games", lit "island",
   lit "duoyi", lit "seasun", lit "kingsoft", lit "century", lit "snail",
   lit "loong", lit "zlong", lit "505 games", lit "microids", lit "ce-asia",
   lit "hk", lit "taiwan", lit "beijing", lit "shanghai", lit "shenzhen",
   lit "tanxun", lit "2P", lit "zk", lit "zh", lit "cn", lit "china",
   lit "beijing", lit "chengdu", lit "hangzhou", lit "guangzhou"]

/-- CULTURAL_KEYWORDS from steamService.ts. -/
def CULTURAL_KEYWORDS : List Str :=
  [lit "wuxia", lit "xianxia", lit "jianghu", lit "three kingdoms", lit "dynasty",
   lit "cultivation", lit "myth", lit "wukong", lit "wuchang", lit "guzheng",
   lit "taoist", lit "immortal", lit "jade", lit "shanhai", lit "yanyun",
   lit "sixteen tones", lit "swordsman", lit "emperor", lit "shaolin",
   lit "records of", lit "legend of", lit "sword and fairy", lit "gujian",
   lit "shengshi", lit "tianxia", lit "matchless", lit "kung fu", lit "eastern",
   lit "oriental", lit "loong", lit "dragon", lit "ming", lit "song",
   lit "tang", lit "han"]

/-- VIP_WHITELIST from steamService.ts. -/
def VIP_WHITELIST : List Str :=
  [lit "wuchang", lit "fallen feathers", lit "where winds meet", lit "sixteen tones",
   lit "yanyun", lit "shengshi", lit "prosperity", lit "tianxia", lit "marvels"]

/-- knownForeignGiants from verifyDomesticGame. -/
def knownForeignGiants : List Str :=
  [lit "capcom", lit "ubisoft", lit "electronic arts", lit "sega", lit "bandai namco",
   lit "square enix", lit "microsoft", lit "sony", lit "bethesda", lit "firaxis",
   lit "cd projekt", lit "rockstar", lit "valve", lit "paradox", lit "fromsoftware",
   lit "larian", lit "activision", lit "blizzard", lit "2k", lit "thq nordic",
   lit "focus entertainment", lit "nintendo", lit "konami", lit "take-two",
   lit "warner bros"]

/-- isKnownEntity from verifyDomesticGame: the (lowercased) string
contains some entry of KNOWN_CN_ENTITIES. -/
def isKnownEntity (s : Str) : Bool :=
  KNOWN_CN_ENTITIES.any fun k => strContains s k

/-- hasCulturalKeyword from verifyDomesticGame. -/
def hasCulturalKeyword (s : Str) : Bool :=
  CULTURAL_KEYWORDS.any fun k => strContains s k

/-- The candidate / product record (interface SteamGame in types.ts).
JavaScript numbers that may be NaN are Option Int with none for NaN;
optional fields are Option-valued. -/
structure SteamGame where
  appid : Option Int
  name : Str
  logo : Str
  release_date : Option Str := none
  developer : Option Str := none
  publishers : Option (List Str) := none
  total_reviews : Option Int := none
  review_summary : Option Str := none
  score : Option Int := none
deriving DecidableEq, Repr

/-- The detail object of a successful appdetails response, restricted to
the fields verifyDomesticGame reads.  `support_email` and `support_url`
already carry the empty-string default of (supportInfo.email || ""). -/
structure AppDetails where
  name : Str
  developers : List Str
  publishers : List Str
  support_email : Str
  support_url : Str
  supported_languages : Str
deriving DecidableEq, Repr

/-- VIP check of verifyDomesticGame: the lowercased localized name
contains some VIP_WHITELIST entry. -/
def isVip (d : AppDetails) : Bool :=
  VIP_WHITELIST.any fun k => strContains (lowerStr d.name) k

/-- Signal: title contains Chinese-script characters (+15). -/
def titleChinese (d : AppDetails) : Bool := hasChineseChars d.name

/-- Signal: lowercased title contains a cultural keyword (+25). -/
def titleCultural (d : AppDetails) : Bool := hasCulturalKeyword (lowerStr d.name)

/-- Signal: some developer name contains Chinese-script characters (+60). -/
def devHasChinese (d : AppDetails) : Bool := d.developers.any hasChineseChars

/-- Signal: some publisher name contains Chinese-script characters (+40). -/
def pubHasChinese (d : AppDetails) : Bool := d.publishers.any hasChineseChars

/-- Signal: some lowercased developer name matches the known-entity list (+50). -/
def devIsKnown (d : AppDetails) : Bool :=
  d.developers.any fun x => isKnownEntity (lowerStr x)

/-- Signal: some lowercased publisher name matches the known-entity list (+35). -/
def pubIsKnown (d : AppDetails) : Bool :=
  d.publishers.any fun x => isKnownEntity (lowerStr x)

/-- Signal: support email ends in .cn or uses a major Chinese mail
provider (+50). -/
def emailSignal (d : AppDetails) : Bool :=
  let email := lowerStr d.support_email
  trailsWith email (lit ".cn") || strContains email (lit "qq.com") ||
  strContains email (lit "163.com") || strContains email (lit "aliyun") ||
  strContains email (lit "netease")

/-- Signal: support URL contains .cn, weibo or bilibili (+40). -/
def urlSignal (d : AppDetails) : Bool :=
  let u := lowerStr d.support_url
  strContains u (lit ".cn") || strContains u (lit "weibo") ||
  strContains u (lit "bilibili")

/-- hasChineseAudio of verifyDomesticGame: either case-insensitive regex
match of Simplified Chinese full audio (English or Chinese markup), or a
literal 汉语 occurrence in the raw string. -/
def hasChineseAudio (d : AppDetails) : Bool :=
  pairSearch (lit "simplified chinese") (lit "<strong>full audio</strong>")
      (lowerStr d.supported_languages) ||
  pairSearch (lit "简体中文") (lit "<strong>完全音频</strong>")
      (lowerStr d.supported_languages) ||
  strContains d.supported_languages (lit "汉语")

/-- hasEnglishAudio of verifyDomesticGame. -/
def hasEnglishAudio (d : AppDetails) : Bool :=
  pairSearch (lit "english") (lit "<strong>full audio</strong>")
      (lowerStr d.supported_languages)

/-- Negative signal: some lowercased developer contains a known foreign
giant (-200). -/
def devForeignGiant (d : AppDetails) : Bool :=
  d.developers.any fun x => knownForeignGiants.any fun k => strContains (lowerStr x) k

/-- Negative signal: some lowercased publisher contains a known foreign
giant. -/
def pubForeignGiant (d : AppDetails) : Bool :=
  d.publishers.any fun x => knownForeignGiants.any fun k => strContains (lowerStr x) k

/-- email.includes(".cn") used inside the publisher-penalty guard. -/
def emailHasCn (d : AppDetails) : Bool :=
  strContains (lowerStr d.support_email) (lit ".cn")

/-- The weighted heuristic score of verifyDomesticGame (the non-VIP
path), summing the signals in source order. -/
def computeScore (d : AppDetails) : Int :=
  (if titleChinese d then 15 else 0) +
  (if titleCultural d then 25 else 0) +
  (if devHasChinese d then 60 else 0) +
  (if pubHasChinese d then 40 else 0) +
  (if devIsKnown d then 50 else 0) +
  (if pubIsKnown d then 35 else 0) +
  (if emailSignal d then 50 else 0) +
  (if urlSignal d then 40 else 0) +
  (if hasChineseAudio d then 25 + (if hasEnglishAudio d then 0 else 25) else 0) +
  (if devForeignGiant d then -200 else 0) +
  (if pubForeignGiant d && !devHasChinese d && !devIsKnown d && !emailHasCn d
   then -100 else 0)

/-- developers.join(", ") used when annotating an accepted candidate. -/
def joinComma (l : List Str) : Str := List.intercalate (lit ", ") l

/-- verifyDomesticGame of steamService.ts, with the network fetch
factored out: `d` is the detail object of a successful appdetails
response (a failed fetch or unsuccessful response yields null before
this point and is modelled by the caller supplying no payload).  VIP
titles are accepted immediately with sentinel score 999; otherwise the
weighted score must reach the threshold 25. -/
def verifyDomesticGame (g : SteamGame) (d : AppDetails) : Option SteamGame :=
  if isVip d then
    some { g with name := d.name, developer := some (joinComma d.developers),
                  publishers := some d.publishers, score := some 999 }
  else if 25 ≤ computeScore d then
    some { g with name := d.name, developer := some (joinComma d.developers),
                  publishers := some d.publishers, score := some (computeScore d) }
  else
    none

/-! ## Search Page Scanner (fetchSearchPage) -/

/-- The character class [0-9,] of the review-count regex. -/
def isDigitOrComma (c : Char) : Bool := c.isDigit || c == ','

/-- The whitespace class matched by a JavaScript regex escape for
whitespace (the common members; the source tooltips only ever contain
plain spaces between the count and its label). -/
def isJsSpace (c : Char) : Bool :=
  c == ' ' || c == '\t' || c == '\n' || c == '\r' ||
  c.val == 0x0b || c.val == 0x0c || c.val == 0xa0 ||
  c.val == 0x2028 || c.val == 0x2029 || c.val == 0x3000 || c.val == 0xfeff

/-- Try to match the review-count regex at the start of the string: a
nonempty run of digits/commas, then optional whitespace, then the
literal label "user reviews" or 篇用户评测; returns the captured run.
Backtracking inside the run never helps (neither label nor whitespace
starts with a digit or comma), so greedy maximal munch is exact. -/
def countAt (s : Str) : Option Str :=
  let run := s.takeWhile isDigitOrComma
  let rest := (s.dropWhile isDigitOrComma).dropWhile isJsSpace
  if run.isEmpty then none
  else if leadsWith (lit "user reviews") rest || leadsWith (lit "篇用户评测") rest then
    some run
  else none

/-- Leftmost match of the review-count regex
/([0-9,]+)(whitespace run)(user reviews|篇用户评测)/ over the tooltip:
the capture of the first position at which the pattern matches.  (If the
pattern fails starting at the head of a digit/comma run it also fails at
every position inside that run, since the remainder past the run is the
same, so position-by-position scanning agrees with the regex engine.) -/
def findCount : Str → Option Str
  | [] => none
  | c :: rest =>
    match countAt (c :: rest) with
    | some cap => some cap
    | none => findCount rest

/-- Digit-run value (the capture with commas stripped is all digits). -/
def digitsVal (s : Str) : Int :=
  s.foldl (fun n c => 10 * n + (c.val.toNat - 0x30 : Nat)) 0

/-- parseInt applied to a string of digits (the comma-stripped capture):
NaN — modelled as none — exactly when the string is empty, i.e. the
capture consisted of commas only. -/
def jsParseRun (s : Str) : Option Int :=
  if s.isEmpty then none else some (digitsVal s)

/-- The reviewCount variable of fetchSearchPage after parsing the
tooltip: 0 when the regex does not match (including the empty tooltip),
otherwise parseInt of the comma-stripped capture (NaN = none when the
capture was all commas). -/
def reviewCountNum (tooltip : Str) : Option Int :=
  match findCount tooltip with
  | none => some 0
  | some cap => jsParseRun (cap.filter fun c => c != ',')

/-- JavaScript x <= k for a possibly-NaN number: false on NaN. -/
def jsLe (x : Option Int) (k : Int) : Bool :=
  match x with
  | some n => n ≤ k
  | none => false

/-- The test of the year regex /20(2[5-9]|[3-9][0-9])/ at the start of
the string. -/
def yearAt : Str → Bool
  | c0 :: c1 :: c2 :: c3 :: _ =>
      c0 == '2' && c1 == '0' &&
      ((c2 == '2' && 0x35 ≤ c3.val && c3.val ≤ 0x39) ||
       (0x33 ≤ c2.val && c2.val ≤ 0x39 && c3.isDigit))
  | _ => false

/-- The test of the year regex anywhere in the release-date label:
a year 2025 through 2099 occurs in the string. -/
def yearOk : Str → Bool
  | [] => false
  | c :: rest => yearAt (c :: rest) || yearOk rest

/-- parseInt for the appid string: skip whitespace, optional sign, then
a leading decimal digit run; NaN (none) when no digits follow.  (The
radix-prefix forms of parseInt never arise for appid attributes.) -/
def jsParseInt (s : Str) : Option Int :=
  match s.dropWhile isJsSpace with
  | '-' :: u => (jsParseRun (u.takeWhile Char.isDigit)).map (fun n => -n)
  | '+' :: u => jsParseRun (u.takeWhile Char.isDigit)
  | u => jsParseRun (u.takeWhile Char.isDigit)

/-- appidStr.split(",")[0]. -/
def firstSegment (s : Str) : Str := s.takeWhile fun c => c != ','

/-- tooltip.split("<br>")[0]. -/
def upToBr : Str → Str
  | [] => []
  | c :: rest =>
      if leadsWith (lit "<br>") (c :: rest) then [] else c :: upToBr rest

/-- One search-result row as fetchSearchPage sees it after DOM access:
the data-ds-appid attribute (none when absent), the trimmed release-date
label (already holding the empty-string default), the tooltip obtained
from the two possible locations (empty when neither is present), and the
title and image source. -/
structure SearchRow where
  dsAppid : Option Str
  released : Str
  tooltip : Str
  title : Str
  img : Str
deriving DecidableEq, Repr

/-- The per-row body of fetchSearchPage: skip the row when the appid
attribute is absent or empty, when no 2025–2099 year occurs in the
release label, or when the rejection test reviewCount <= 1000 holds
(false for NaN); otherwise produce the discovered candidate. -/
def processRow (row : SearchRow) : Option SteamGame :=
  match row.dsAppid with
  | none => none
  | some appidStr =>
    if appidStr.isEmpty then none
    else if !yearOk row.released then none
    else if jsLe (reviewCountNum row.tooltip) 1000 then none
    else
      some { appid := jsParseInt (firstSegment appidStr),
             name := if row.title.isEmpty then lit "Unknown" else row.title,
             logo := row.img,
             release_date := some row.released,
             total_reviews := reviewCountNum row.tooltip,
             review_summary := some (if (upToBr row.tooltip).isEmpty
                                     then lit "Unknown" else upToBr row.tooltip) }

/-- fetchSearchPage restricted to its parsing core: the candidates
extracted from the rows of one page, in row order. -/
def fetchSearchPage (rows : List SearchRow) : List SteamGame :=
  rows.filterMap processRow

/-! ## Scan Orchestrator (scanForHighTrafficGames) -/

/-- JavaScript === on two possibly-NaN numbers: false whenever either
side is NaN. -/
def jsNumEq (a b : Option Int) : Bool :=
  match a, b with
  | some x, some y => x == y
  | _, _ => false

/-- One step of the Phase-1 dedup: append the discovered game unless a
candidate with === -equal appid is already accumulated. -/
def dedupStep (cs : List SteamGame) (g : SteamGame) : List SteamGame :=
  if cs.any (fun c => jsNumEq c.appid g.appid) then cs else cs ++ [g]

/-- Phase 1 of scanForHighTrafficGames: the page results (each a list of
discovered candidates, in the order the concurrency groups complete and,
within a group, in page order) folded through the dedup step. -/
def discover (pages : List (List SteamGame)) : List SteamGame :=
  pages.foldl (fun acc pg => pg.foldl dedupStep acc) []

/-- Phase 2 of scanForHighTrafficGames: classify every candidate and
keep the non-null results, in candidate order.  `details` is the oracle
for the appdetails fetch inside verifyDomesticGame: none models a failed
fetch or an unsuccessful response (which yield null).  Chunked fan-out
with a join after each chunk of 8 produces exactly this order, since
each chunk is awaited in full and its results pushed in chunk order. -/
def classifyPhase (details : SteamGame → Option AppDetails)
    (cands : List SteamGame) : List SteamGame :=
  cands.filterMap fun g => (details g).bind fun d => verifyDomesticGame g d

/-- The comparator (a, b) => (b.total_reviews || 0) - (a.total_reviews || 0):
the key it sorts descendingly on, with undefined and NaN both collapsing
to 0. -/
def reviewsOrZero (g : SteamGame) : Int :=
  match g.total_reviews with
  | some n => n
  | none => 0

/-- The order relation realised by the final sort call. -/
def byReviewsDesc (a b : SteamGame) : Bool :=
  reviewsOrZero b ≤ reviewsOrZero a

/-- scanForHighTrafficGames on the normal (exception-free) path: dedup
the discovered pages, classify, and sort by approximate review count
descending. -/
def scanForHighTrafficGames (pages : List (List SteamGame))
    (details : SteamGame → Option AppDetails) : List SteamGame :=
  (classifyPhase details (discover pages)).mergeSort byReviewsDesc

/-- The best-effort value returned from the catch branch of
scanForHighTrafficGames when an exception interrupts Phase 2 after `k`
chunks of CHUNK_SIZE = 8 candidates have been classified: the validGames
accumulated so far, returned without the final sort (the sort is only
reached on the normal path).  The classifier and the page scanner
swallow their own errors, so the only throwing site after a chunk
completes is the progress emission before the NEXT chunk; the catch
branch therefore actually returns this value exactly when a further
chunk exists — 8 * k is below the deduplicated candidate count — and
the accumulated list is nonempty. -/
def scanPartial (pages : List (List SteamGame))
    (details : SteamGame → Option AppDetails) (k : Nat) : List SteamGame :=
  classifyPhase details ((discover pages).take (8 * k))

/-! ## Relay Client (fetchWithProxy) -/

/-- The user-facing message thrown after every relay strategy failed. -/
def proxyFailMsg : Str := lit "网络连接失败：所有代理服务均无响应，请稍后重试。"

/-- Outcomes of the three try blocks of fetchWithProxy for one call, as
an oracle: each strategy either yields a payload (modelled opaquely as a
string) or fails with the reason string that the catch block would
render. -/
structure RelayAttempts where
  allOrigins : Except Str Str
  corsProxy : Except Str Str
  codeTabs : Except Str Str

/-- fetchWithProxy: try the strategies in order; on failure push the
tagged reason onto the errors array and advance; after the third failure
log the errors and throw the fixed user-facing message.  The second
component is the errors array at exit (the console.error diagnostics). -/
def fetchWithProxy (a : RelayAttempts) : Except Str Str × List Str :=
  match a.allOrigins with
  | .ok v => (.ok v, [])
  | .error e1 =>
    let errs1 := [lit "AllOrigins: " ++ e1]
    match a.corsProxy with
    | .ok v => (.ok v, errs1)
    | .error e2 =>
      let errs2 := errs1 ++ [lit "CorsProxy: " ++ e2]
      match a.codeTabs with
      | .ok v => (.ok v, errs2)
      | .error e3 => (.error proxyFailMsg, errs2 ++ [lit "CodeTabs: " ++ e3])

/-! ## Review Fetcher (fetchReviews) and the review filter -/

/-- The fields of a Steam review that the core reads (types.ts
SteamReview, restricted).  Playtime and timestamps are JavaScript
numbers used in exact arithmetic, modelled as rationals. -/
structure SteamReview where
  playtime_forever : ℚ
  timestamp_created : ℚ
  voted_up : Bool
  review : Str
deriving DecidableEq, Repr

/-- One page of the appreviews endpoint as fetchReviews reads it:
success flag and review list (the cursor only feeds the next URL and is
not needed by any claim). -/
structure ReviewPage where
  success : Int
  reviews : List SteamReview
deriving DecidableEq, Repr

/-- The user-facing message fetchReviews throws when a page request
throws (relay exhaustion). -/
def reviewsErrMsg : Str := lit "无法抓取评论数据，请检查网络或Steam服务状态。"

/-- The loop body of fetchReviews: `pages i` is the oracle for the i-th
page request (error = fetchWithProxy threw).  `budget` is the remaining
iteration budget of the for loop.  Returns the outcome together with the
number of page requests issued.  A missing/failed payload or an empty
page breaks; after appending a page the loop stops once the accumulated
count reaches the limit; a thrown request aborts the whole call with the
user-facing error, discarding the accumulator. -/
def fetchReviewsGo (pages : Nat → Except Unit ReviewPage) (limit : Nat) :
    Nat → Nat → List SteamReview → Except Str (List SteamReview) × Nat
  | _, 0, acc => (.ok acc, 0)
  | i, budget + 1, acc =>
    match pages i with
    | .error _ => (.error reviewsErrMsg, 1)
    | .ok pg =>
      if pg.success != 1 || pg.reviews.isEmpty then (.ok acc, 1)
      else if limit ≤ (acc ++ pg.reviews).length then (.ok (acc ++ pg.reviews), 1)
      else ((fetchReviewsGo pages limit (i + 1) budget (acc ++ pg.reviews)).1,
            (fetchReviewsGo pages limit (i + 1) budget (acc ++ pg.reviews)).2 + 1)

/-- fetchReviews: page size 100, at most ceil(limit / 100) iterations. -/
def fetchReviews (pages : Nat → Except Unit ReviewPage) (limit : Nat) :
    Except Str (List SteamReview) × Nat :=
  fetchReviewsGo pages limit 0 ((limit + 99) / 100) []

/-- Total review count over k consecutive page responses starting at
index i (failed requests contributing 0). -/
def accLenFrom (pages : Nat → Except Unit ReviewPage) : Nat → Nat → Nat
  | _, 0 => 0
  | i, k + 1 =>
    (match pages i with
     | .ok pg => pg.reviews.length
     | .error _ => 0) + accLenFrom pages (i + 1) k

/-- Total review count over the first k page responses; equals the loop
accumulator length while all pages succeed. -/
def accLen (pages : Nat → Except Unit ReviewPage) (k : Nat) : Nat :=
  accLenFrom pages 0 k

/-- The filter criteria of ClientApp.tsx with the date strings already
resolved to epoch seconds: startTs and endDateTs are
new Date(startDate).getTime() / 1000 and the same for endDate (UTC
midnight of the respective calendar day). -/
structure FilterCriteria where
  minPlaytimeHours : ℚ
  maxPlaytimeHours : ℚ
  startTs : ℚ
  endDateTs : ℚ
deriving DecidableEq, Repr

/-- The review-filter predicate of the ClientApp useEffect: playtime in
hours within the inclusive bounds, and creation timestamp between
startTs and endDateTs + 86400 (the end bound pushed one day past the
end date's midnight, per the source's end-of-day adjustment). -/
def passesFilter (f : FilterCriteria) (r : SteamReview) : Bool :=
  let playtimeHours := r.playtime_forever / 60
  let isPlaytimeMatch :=
    decide (f.minPlaytimeHours ≤ playtimeHours) &&
    decide (playtimeHours ≤ f.maxPlaytimeHours)
  let isDateMatch :=
    decide (f.startTs ≤ r.timestamp_created) &&
    decide (r.timestamp_created ≤ f.endDateTs + 86400)
  isPlaytimeMatch && isDateMatch

/-- The filtered list the useEffect stores. -/
def filteredReviews (f : FilterCriteria) (reviews : List SteamReview) :
    List SteamReview :=
  reviews.filter (passesFilter f)

/-! ## Concrete payloads used in witnesses and counterexamples -/

/-- A discovered candidate used as classifier input in examples. -/
def gameDemo : SteamGame :=
  { appid := some 123, name := lit "placeholder", logo := [] }

/-- A VIP-titled detail payload. -/
def dVip : AppDetails :=
  { name := lit "Where Winds Meet", developers := [lit "Everstone Studio"],
    publishers := [lit "NetEase Games"], support_email := [], support_url := [],
    supported_languages := [] }

/-- A detail payload with no signal at all. -/
def dEmpty : AppDetails :=
  { name := [], developers := [], publishers := [], support_email := [],
    support_url := [], supported_languages := [] }

/-- The candidate record the classifier produces for dVip. -/
def rVip : SteamGame :=
  { gameDemo with name := dVip.name,
                  developer := some (joinComma dVip.developers),
                  publishers := some dVip.publishers, score := some 999 }

/-- A foreign-giant-developed payload whose title carries a cultural
keyword and nothing else matches. -/
def dCapcom : AppDetails :=
  { name := lit "Wuxia Adventure", developers := [lit "Capcom"],
    publishers := [], support_email := [], support_url := [],
    supported_languages := [] }

/-! ## C1 -/

/-- C1: for every detail payload the Origin Classifier returns the
annotated candidate exactly when the VIP override fires or the computed
total score reaches 25; every returned candidate carries score 999 (VIP)
or a score at least 25; and every non-VIP payload scoring below 25
yields null. -/
theorem verify_threshold_invariant (g : SteamGame) (d : AppDetails) :
    (verifyDomesticGame g d ≠ none ↔ (isVip d = true ∨ 25 ≤ computeScore d)) ∧
    (∀ r, verifyDomesticGame g d = some r →
      r.score = some 999 ∨ ∃ s, r.score = some s ∧ 25 ≤ s) ∧
    (isVip d = false → computeScore d < 25 → verifyDomesticGame g d = none) := by
  by_cases hv : isVip d = true
  · refine ⟨⟨fun _ => Or.inl hv, fun _ => ?_⟩, fun r hr => ?_, fun hv2 _ => ?_⟩
    · simp [verifyDomesticGame, hv]
    · simp only [verifyDomesticGame, hv, if_true] at hr
      cases hr
      exact Or.inl rfl
    · rw [hv2] at hv; cases hv
  · have hv' : isVip d = false := by
      cases h : isVip d
      · rfl
      · exact absurd h hv
    by_cases hs : 25 ≤ computeScore d
    · refine ⟨⟨fun _ => Or.inr hs, fun _ => ?_⟩, fun r hr => ?_, fun _ hlt => ?_⟩
      · simp [verifyDomesticGame, hv', hs]
      · simp only [verifyDomesticGame, hv', Bool.false_eq_true, if_false,
          if_pos hs] at hr
        cases hr
        exact Or.inr ⟨computeScore d, rfl, hs⟩
      · omega
    · refine ⟨⟨fun hne => ?_, fun hor => ?_⟩, fun r hr => ?_, fun _ _ => ?_⟩
      · exfalso
        apply hne
        simp [verifyDomesticGame, hv', hs]
      · rcases hor with h | h
        · exact absurd h hv
        · exact absurd h hs
      · simp [verifyDomesticGame, hv', hs] at hr
      · simp [verifyDomesticGame, hv', hs]

/-- Witness for C1 at concrete payloads: the VIP payload is accepted
with score 999 and the empty payload is rejected. -/
theorem verify_threshold_invariant_witness :
    (rVip.score = some 999 ∨ ∃ s, rVip.score = some s ∧ 25 ≤ s) ∧
    verifyDomesticGame gameDemo dEmpty = none ∧
    verifyDomesticGame gameDemo dVip ≠ none :=
  ⟨(verify_threshold_invariant gameDemo dVip).2.1 rVip (by decide),
   (verify_threshold_invariant gameDemo dEmpty).2.2 (by decide) (by decide),
   (verify_threshold_invariant gameDemo dVip).1.mpr (Or.inl (by decide))⟩

/-! ## C5 -/

/-- C5: a payload whose developer matches the foreign-studio list, whose
title is not VIP, and whose only positive signal is a cultural keyword
in the title (no Chinese script or known-entity match anywhere, no
support-contact signal, no Chinese full audio, and no foreign-giant
publisher — the scenario's "nothing else matches") scores exactly
25 - 200 = -175 and is rejected. -/
theorem foreign_giant_rejected (g : SteamGame) (d : AppDetails)
    (h1 : devForeignGiant d = true) (h2 : isVip d = false)
    (h3 : titleCultural d = true) (h4 : titleChinese d = false)
    (h5 : devHasChinese d = false) (h6 : pubHasChinese d = false)
    (h7 : devIsKnown d = false) (h8 : pubIsKnown d = false)
    (h9 : emailSignal d = false) (h10 : urlSignal d = false)
    (h11 : hasChineseAudio d = false) (h12 : pubForeignGiant d = false) :
    computeScore d = -175 ∧ verifyDomesticGame g d = none := by
  have hsc : computeScore d = -175 := by
    simp [computeScore, h1, h3, h4, h5, h6, h7, h8, h9, h10, h11, h12]
  refine ⟨hsc, ?_⟩
  have hlt : ¬ (25 ≤ computeScore d) := by omega
  simp [verifyDomesticGame, h2, hlt]

/-- Witness for C5: the Capcom-developed payload titled with a cultural
keyword evaluates to score -175 and is rejected. -/
theorem foreign_giant_rejected_witness :
    computeScore dCapcom = -175 ∧ verifyDomesticGame gameDemo dCapcom = none :=
  foreign_giant_rejected gameDemo dCapcom (by decide) (by decide) (by decide)
    (by decide) (by decide) (by decide) (by decide) (by decide) (by decide)
    (by decide) (by decide) (by decide)

/-! ## C4 -/

/-- jsLe is false exactly on NaN or on numbers above the bound. -/
theorem jsLe_eq_false (x : Option Int) (k : Int) :
    jsLe x k = false ↔ x = none ∨ ∃ n, x = some n ∧ k < n := by
  cases x with
  | none => simp [jsLe]
  | some n =>
    simp only [jsLe, decide_eq_false_iff_not, not_le, Option.some.injEq,
      reduceCtorEq, false_or]
    constructor
    · exact fun h => ⟨n, rfl, h⟩
    · rintro ⟨m, hm, h⟩
      omega

/-- C4 (amended): a search-result row yields a candidate exactly when
its appid attribute is present and nonempty, its release label contains
a year 2025–2099, and the rejection test reviewCount <= 1000 is false —
that is, the parsed count is strictly greater than 1000, or the matched
count text was commas-only so the parse yields NaN and the comparison is
(vacuously) false.  The stated boundary behaviours all hold: "2024" and
"2100" are rejected, "2025", "Q1 2026", "21 Dec, 2099" are accepted,
"1,000 user reviews" parses to 1000 and is rejected, "1,001" is
accepted. -/
theorem search_row_acceptance (row : SearchRow) :
    ((processRow row).isSome = true ↔
      ((∃ a, row.dsAppid = some a ∧ ¬ a.isEmpty) ∧ yearOk row.released = true ∧
        (reviewCountNum row.tooltip = none ∨
         ∃ n, reviewCountNum row.tooltip = some n ∧ 1000 < n))) ∧
    yearOk (lit "2024") = false ∧ yearOk (lit "2025") = true ∧
    yearOk (lit "Q1 2026") = true ∧ yearOk (lit "21 Dec, 2099") = true ∧
    yearOk (lit "2100") = false ∧
    reviewCountNum (lit "1,000 user reviews") = some 1000 ∧
    reviewCountNum (lit "1,001 user reviews") = some 1001 := by
  refine ⟨?_, by decide, by decide, by decide, by decide, by decide,
    by decide, by decide⟩
  cases ha : row.dsAppid with
  | none =>
    simp only [processRow, ha, Option.isSome_none, Bool.false_eq_true,
      false_iff]
    rintro ⟨⟨a, ha', _⟩, _⟩
    cases ha'
  | some a =>
    cases he : a.isEmpty with
    | true =>
      simp only [processRow, ha, he, if_true, Option.isSome_none,
        Bool.false_eq_true, false_iff]
      rintro ⟨⟨a', ha', hne⟩, _⟩
      cases ha'
      exact hne he
    | false =>
      cases hy : yearOk row.released with
      | false =>
        simp only [processRow, ha, he, hy]
        simp only [Bool.false_eq_true, if_false, Bool.not_false, if_true,
          Option.isSome_none, false_iff]
        rintro ⟨_, hyy, _⟩
        cases hyy
      | true =>
        cases hle : jsLe (reviewCountNum row.tooltip) 1000 with
        | true =>
          simp only [processRow, ha, he, hy, hle]
          simp only [Bool.false_eq_true, if_false, Bool.not_true, if_true,
            Option.isSome_none, false_iff]
          rintro ⟨_, _, hcl⟩
          have h := (jsLe_eq_false (reviewCountNum row.tooltip) 1000).2 hcl
          rw [hle] at h
          cases h
        | false =>
          simp only [processRow, ha, he, hy, hle]
          simp only [Bool.false_eq_true, if_false, Bool.not_false, if_true,
            Bool.not_true, Option.isSome_some, true_iff]
          refine ⟨⟨a, rfl, ?_⟩, trivial, (jsLe_eq_false _ _).1 hle⟩
          intro h
          rw [he] at h
          cases h

/-- The row that refutes C4 as stated: appid present, year accepted, and
a tooltip whose matched count text is a bare comma. -/
def rowNaN : SearchRow :=
  { dsAppid := some (lit "10"), released := lit "2025",
    tooltip := lit ",user reviews", title := lit "G", img := [] }

/-- Counterexample to C4 as stated: this row is accepted by the scanner
although its parsed review count is NaN, not a number above 1000. -/
theorem search_row_acceptance_counterexample :
    (processRow rowNaN).isSome = true ∧ reviewCountNum rowNaN.tooltip = none := by
  decide

/-! ## C6 -/

/-- Every string is contained in any string extending it on the left. -/
theorem infix_of_append_left (tag e : Str) : e <:+: tag ++ e :=
  ⟨tag, [], by simp⟩

/-- C6 (amended): when all three relay strategies fail, fetchWithProxy
fails with the fixed user-facing message, and the diagnostics array it
logs enumerates all three per-strategy failure reasons, each tagged with
its strategy name and containing the recorded reason; the thrown message
itself does not carry the reasons. -/
theorem fetchWithProxy_exhaustion (e1 e2 e3 : Str) :
    fetchWithProxy ⟨.error e1, .error e2, .error e3⟩ =
      (.error proxyFailMsg,
       [lit "AllOrigins: " ++ e1, lit "CorsProxy: " ++ e2,
        lit "CodeTabs: " ++ e3]) ∧
    e1 <:+: lit "AllOrigins: " ++ e1 ∧
    e2 <:+: lit "CorsProxy: " ++ e2 ∧
    e3 <:+: lit "CodeTabs: " ++ e3 :=
  ⟨rfl, infix_of_append_left _ e1, infix_of_append_left _ e2,
   infix_of_append_left _ e3⟩

/-- The all-fail attempt used to refute C6 as stated. -/
def relayAllFail : RelayAttempts :=
  { allOrigins := .error (lit "Status 500"),
    corsProxy := .error (lit "Status 403"),
    codeTabs := .error (lit "Network timeout") }

/-- Counterexample to C6 as stated: after three concrete failures the
thrown message is the fixed string and contains none of the three
recorded failure reasons. -/
theorem fetchWithProxy_exhaustion_counterexample :
    (fetchWithProxy relayAllFail).1 = .error proxyFailMsg ∧
    strContains proxyFailMsg (lit "Status 500") = false ∧
    strContains proxyFailMsg (lit "Status 403") = false ∧
    strContains proxyFailMsg (lit "Network timeout") = false :=
  ⟨rfl, by decide, by decide, by decide⟩

/-! ## C9 -/

/-- The scenario filter: min 0 h, max 10 h, 2025-01-01 through
2025-12-31 (UTC midnights as epoch seconds). -/
def filterEx : FilterCriteria :=
  { minPlaytimeHours := 0, maxPlaytimeHours := 10,
    startTs := 1735689600, endDateTs := 1767139200 }

/-- A review with 5 hours of playtime created 2025-06-01. -/
def reviewPass : SteamReview :=
  { playtime_forever := 300, timestamp_created := 1748736000,
    voted_up := true, review := [] }

/-- A review with 15 hours of playtime created 2025-06-01. -/
def reviewFail : SteamReview :=
  { playtime_forever := 900, timestamp_created := 1748736000,
    voted_up := false, review := [] }

/-- C9: a review passes the filter exactly when its playtime in hours
(playtime_forever / 60) lies within the inclusive playtime bounds and
its creation timestamp lies within the date bounds with the end bound
extended past the end date's midnight by a full day (the source's
end-of-day adjustment); the 5-hour review of the scenario passes and the
15-hour one fails. -/
theorem review_filter_criteria (f : FilterCriteria) (r : SteamReview) :
    (passesFilter f r = true ↔
      (f.minPlaytimeHours ≤ r.playtime_forever / 60 ∧
       r.playtime_forever / 60 ≤ f.maxPlaytimeHours ∧
       f.startTs ≤ r.timestamp_created ∧
       r.timestamp_created ≤ f.endDateTs + 86400)) ∧
    passesFilter filterEx reviewPass = true ∧
    passesFilter filterEx reviewFail = false := by
  refine ⟨?_, ?_, ?_⟩
  · simp [passesFilter, and_assoc]
  · norm_num [passesFilter, filterEx, reviewPass]
  · norm_num [passesFilter, filterEx, reviewFail]

/-! ## C2 -/

/-- The no-shared-appid relation: the two candidates do not carry
=== -equal appids (NaN appids, like NaN in JavaScript, equal nothing). -/
def noSharedAppid (a b : SteamGame) : Prop := jsNumEq a.appid b.appid = false

/-- jsNumEq is symmetric. -/
theorem jsNumEq_symm (a b : Option Int) : jsNumEq a b = jsNumEq b a := by
  cases a with
  | none => cases b <;> rfl
  | some x =>
    cases b with
    | none => rfl
    | some y =>
      by_cases h : x = y
      · simp [jsNumEq, h]
      · simp [jsNumEq, h, Ne.symm h]

/-- One dedup step preserves the pairwise no-shared-appid invariant. -/
theorem dedupStep_pairwise (acc : List SteamGame) (g : SteamGame)
    (h : acc.Pairwise noSharedAppid) : (dedupStep acc g).Pairwise noSharedAppid := by
  unfold dedupStep
  cases hc : acc.any (fun c => jsNumEq c.appid g.appid) with
  | true => simpa [hc] using h
  | false =>
    simp only [hc, Bool.false_eq_true, if_false]
    rw [List.pairwise_append]
    refine ⟨h, List.pairwise_singleton _ _, ?_⟩
    intro a ha b hb
    have hb' : b = g := by simpa using hb
    subst hb'
    have := List.any_eq_false.mp hc a ha
    simpa [noSharedAppid] using this

/-- Folding dedup steps preserves the invariant. -/
theorem foldl_dedup_pairwise (gs : List SteamGame) :
    ∀ acc, acc.Pairwise noSharedAppid →
      (gs.foldl dedupStep acc).Pairwise noSharedAppid := by
  induction gs with
  | nil => intro acc h; simpa using h
  | cons g gs ih =>
    intro acc h
    simpa using ih (dedupStep acc g) (dedupStep_pairwise acc g h)

/-- The discovery phase yields a candidate list with no repeated
appid. -/
theorem discover_pairwise (pages : List (List SteamGame)) :
    (discover pages).Pairwise noSharedAppid := by
  unfold discover
  generalize hacc : ([] : List SteamGame) = acc
  have h : acc.Pairwise noSharedAppid := by rw [← hacc]; exact List.Pairwise.nil
  clear hacc
  induction pages generalizing acc with
  | nil => simpa using h
  | cons pg pages ih =>
    simpa using ih (pg.foldl dedupStep acc) (foldl_dedup_pairwise pg acc h)

/-- The classifier preserves the appid of the candidate it annotates. -/
theorem verify_preserves_appid (g : SteamGame) (d : AppDetails) (r : SteamGame)
    (h : verifyDomesticGame g d = some r) : r.appid = g.appid := by
  unfold verifyDomesticGame at h
  by_cases hv : isVip d = true
  · rw [if_pos hv] at h
    cases h
    rfl
  · rw [if_neg hv] at h
    by_cases hs : 25 ≤ computeScore d
    · rw [if_pos hs] at h
      cases h
      rfl
    · rw [if_neg hs] at h
      cases h

/-- The classification phase preserves the pairwise no-shared-appid
invariant. -/
theorem classifyPhase_pairwise (details : SteamGame → Option AppDetails)
    (cands : List SteamGame) (h : cands.Pairwise noSharedAppid) :
    (classifyPhase details cands).Pairwise noSharedAppid := by
  unfold classifyPhase
  refine List.Pairwise.filterMap _ ?_ h
  intro a a' hR b hb b' hb'
  simp only [Option.mem_def, Option.bind_eq_some] at hb hb'
  obtain ⟨d, _, hv⟩ := hb
  obtain ⟨d', _, hv'⟩ := hb'
  unfold noSharedAppid
  rw [verify_preserves_appid a d b hv, verify_preserves_appid a' d' b' hv']
  exact hR

/-- C2: every candidate list the Scan Orchestrator produces — the
discovered list, the final sorted list, and the best-effort partial
list — contains no two entries with === -equal appids: nothing is
appended whose appid already appears, and each candidate is classified
at most once. -/
theorem scan_dedup_invariant (pages : List (List SteamGame))
    (details : SteamGame → Option AppDetails) :
    (discover pages).Pairwise noSharedAppid ∧
    (scanForHighTrafficGames pages details).Pairwise noSharedAppid ∧
    ∀ k, (scanPartial pages details k).Pairwise noSharedAppid := by
  refine ⟨discover_pairwise pages, ?_, fun k => ?_⟩
  · have h := classifyPhase_pairwise details (discover pages)
      (discover_pairwise pages)
    unfold scanForHighTrafficGames
    refine (List.mergeSort_perm _ byReviewsDesc).symm.pairwise h ?_
    intro x y hxy
    unfold noSharedAppid at hxy ⊢
    rw [jsNumEq_symm]
    exact hxy
  · unfold scanPartial
    refine classifyPhase_pairwise details _ ?_
    exact (discover_pairwise pages).sublist (List.take_sublist _ _)

/-! ## C3 -/

/-- C3 (amended): the list returned on normal completion is sorted
non-increasingly by the review-count key of the comparator. -/
theorem scan_sorted (pages : List (List SteamGame))
    (details : SteamGame → Option AppDetails) :
    (scanForHighTrafficGames pages details).Pairwise
      (fun a b => reviewsOrZero b ≤ reviewsOrZero a) := by
  unfold scanForHighTrafficGames
  refine List.Pairwise.imp ?_
    (List.sorted_mergeSort ?_ ?_ (classifyPhase details (discover pages)))
  · intro a b hab
    simpa [byReviewsDesc, decide_eq_true_eq] using hab
  · intro a b c hab hbc
    simp only [byReviewsDesc, decide_eq_true_eq] at hab hbc ⊢
    omega
  · intro a b
    simp only [byReviewsDesc, Bool.or_eq_true, decide_eq_true_eq]
    omega

/-- A low-review VIP-titled candidate discovered before a high-review
one. -/
def gLow : SteamGame :=
  { appid := some 1, name := lit "wuchang", logo := [],
    total_reviews := some 1500 }

/-- The high-review companion of gLow. -/
def gHigh : SteamGame :=
  { appid := some 2, name := lit "wuchang", logo := [],
    total_reviews := some 2000 }

/-- A details oracle that reflects the candidate's own name, so the two
VIP-titled candidates are accepted and the signal-free fillers are
rejected with score 0. -/
def detailsVip : SteamGame → Option AppDetails := fun g =>
  some { name := g.name, developers := [], publishers := [],
         support_email := [], support_url := [], supported_languages := [] }

/-- A filler candidate whose name triggers no signal, so classification
rejects it. -/
def gFiller (n : Int) : SteamGame :=
  { appid := some n, name := lit "plainx", logo := [],
    total_reviews := some 100 }

/-- One search page of nine candidates: the two VIP-titled games first,
then seven signal-free fillers.  Nine candidates make Phase 2 run two
chunks (8 + 1), so after chunk 1 completes the progress emission before
chunk 2 can still throw, landing in the catch branch with the two
validated games accumulated. -/
def pagesNine : List (List SteamGame) :=
  [[gLow, gHigh, gFiller 3, gFiller 4, gFiller 5, gFiller 6, gFiller 7,
    gFiller 8, gFiller 9]]

/-- Counterexample to C3 as stated, at a reachable catch-branch input:
with nine discovered candidates a second classification chunk exists, so
a progress callback throwing before chunk 2 makes the orchestrator
return the chunk-1 validGames — accumulation order, here 1500 before
2000 — without sorting.  The last conjunct records the reachability
condition: one full chunk leaves candidates (and hence a throwing site)
remaining. -/
theorem scan_sorted_counterexample :
    (scanPartial pagesNine detailsVip 1).map reviewsOrZero = [1500, 2000] ∧
    ¬ (scanPartial pagesNine detailsVip 1).Pairwise
        (fun a b => reviewsOrZero b ≤ reviewsOrZero a) ∧
    8 * 1 < (discover pagesNine).length := by
  refine ⟨by decide, by decide, by decide⟩

/-! ## C7, C8, C10 -/

/-- The review loop issues at most `budget` page requests. -/
theorem fetchReviewsGo_requests_le (pages : Nat → Except Unit ReviewPage)
    (limit : Nat) :
    ∀ budget i acc, (fetchReviewsGo pages limit i budget acc).2 ≤ budget := by
  intro budget
  induction budget with
  | zero => intro i acc; simp [fetchReviewsGo]
  | succ b ih =>
    intro i acc
    have one_le : (1 : Nat) ≤ b + 1 := Nat.succ_le_succ (Nat.zero_le b)
    simp only [fetchReviewsGo]
    split
    · exact one_le
    · split
      · exact one_le
      · split
        · exact one_le
        · exact Nat.succ_le_succ (ih (i + 1) _)

/-- If the loop issues a request after page `i + j`, then that page
succeeded with a nonempty review list and the accumulated count was
still below the limit. -/
theorem fetchReviewsGo_continue (pages : Nat → Except Unit ReviewPage)
    (limit : Nat) :
    ∀ budget i acc j, j + 1 < (fetchReviewsGo pages limit i budget acc).2 →
      (∃ pg, pages (i + j) = .ok pg ∧ pg.success = 1 ∧ pg.reviews ≠ []) ∧
      acc.length + accLenFrom pages i (j + 1) < limit := by
  intro budget
  induction budget with
  | zero =>
    intro i acc j h
    simp [fetchReviewsGo] at h
  | succ b ih =>
    intro i acc j h
    cases hp : pages i with
    | error e =>
      simp [fetchReviewsGo, hp] at h
    | ok pg =>
      by_cases hbad : (pg.success != 1 || pg.reviews.isEmpty) = true
      · simp [fetchReviewsGo, hp, hbad] at h
      · by_cases hstop : limit ≤ (acc ++ pg.reviews).length
        · simp only [fetchReviewsGo, hp] at h
          rw [if_neg hbad, if_pos hstop] at h
          simp only at h
          omega
        · simp only [fetchReviewsGo, hp] at h
          rw [if_neg hbad, if_neg hstop] at h
          simp only at h
          have hgood : pg.success = 1 ∧ pg.reviews ≠ [] := by
            simpa [not_or] using hbad
          cases j with
          | zero =>
            refine ⟨⟨pg, by simpa using hp, hgood.1, hgood.2⟩, ?_⟩
            have hlen : accLenFrom pages i 1 = pg.reviews.length := by
              simp [accLenFrom, hp]
            rw [hlen]
            rw [List.length_append] at hstop
            omega
          | succ j' =>
            have h' : j' + 1 < (fetchReviewsGo pages limit (i + 1) b
                (acc ++ pg.reviews)).2 := by omega
            obtain ⟨⟨pg', hp', h1, h2⟩, hlen⟩ := ih (i + 1) (acc ++ pg.reviews) j' h'
            constructor
            · refine ⟨pg', ?_, h1, h2⟩
              rw [show i + (j' + 1) = i + 1 + j' by omega]
              exact hp'
            · have heq : accLenFrom pages i (j' + 1 + 1) =
                  pg.reviews.length + accLenFrom pages (i + 1) (j' + 1) := by
                simp [accLenFrom, hp]
              rw [heq]
              rw [List.length_append] at hlen
              omega

/-- C7: the Review Fetcher issues at most ceil(limit / 100) page
requests; it issues a further request only while the previous page
succeeded with a nonempty review list and the accumulated review count
was still below the limit; in particular limit 250 yields at most 3
requests. -/
theorem fetchReviews_request_cap (pages : Nat → Except Unit ReviewPage)
    (limit : Nat) :
    (fetchReviews pages limit).2 ≤ (limit + 99) / 100 ∧
    (∀ j, j + 1 < (fetchReviews pages limit).2 →
      (∃ pg, pages j = .ok pg ∧ pg.success = 1 ∧ pg.reviews ≠ []) ∧
      accLen pages (j + 1) < limit) ∧
    (fetchReviews pages 250).2 ≤ 3 := by
  refine ⟨fetchReviewsGo_requests_le pages limit _ 0 [], fun j hj => ?_, ?_⟩
  · have h := fetchReviewsGo_continue pages limit ((limit + 99) / 100) 0 [] j hj
    simpa [accLen] using h
  · exact fetchReviewsGo_requests_le pages 250 _ 0 []

/-- A review value used to populate concrete pages. -/
def rDummy : SteamReview :=
  { playtime_forever := 0, timestamp_created := 0, voted_up := true,
    review := [] }

/-- A full successful page of 100 reviews. -/
def pageFull : ReviewPage :=
  { success := 1, reviews := List.replicate 100 rDummy }

/-- An oracle on which every page request succeeds with a full page. -/
def pages150 : Nat → Except Unit ReviewPage := fun _ => .ok pageFull

/-- Witness for C7 at limit 150 over full pages: the loop issues a
second request, so page 0 was good and the first 100 reviews were below
the limit. -/
theorem fetchReviews_request_cap_witness :
    (∃ pg, pages150 0 = .ok pg ∧ pg.success = 1 ∧ pg.reviews ≠ []) ∧
    accLen pages150 1 < 150 :=
  (fetchReviews_request_cap pages150 150).2.1 0 (by decide)

/-- If a page request that the loop actually issued failed, the whole
call fails with the user-facing message (discarding the accumulator). -/
theorem fetchReviewsGo_error (pages : Nat → Except Unit ReviewPage)
    (limit : Nat) :
    ∀ budget i acc j, j < (fetchReviewsGo pages limit i budget acc).2 →
      pages (i + j) = .error () →
      (fetchReviewsGo pages limit i budget acc).1 = .error reviewsErrMsg := by
  intro budget
  induction budget with
  | zero =>
    intro i acc j h _
    simp [fetchReviewsGo] at h
  | succ b ih =>
    intro i acc j h he
    cases hp : pages i with
    | error e =>
      simp [fetchReviewsGo, hp]
    | ok pg =>
      by_cases hbad : (pg.success != 1 || pg.reviews.isEmpty) = true
      · simp only [fetchReviewsGo, hp] at h
        rw [if_pos hbad] at h
        simp only at h
        have hj0 : j = 0 := by omega
        subst hj0
        rw [Nat.add_zero, hp] at he
        simp at he
      · by_cases hstop : limit ≤ (acc ++ pg.reviews).length
        · simp only [fetchReviewsGo, hp] at h
          rw [if_neg hbad, if_pos hstop] at h
          simp only at h
          have hj0 : j = 0 := by omega
          subst hj0
          rw [Nat.add_zero, hp] at he
          simp at he
        · simp only [fetchReviewsGo, hp] at h ⊢
          rw [if_neg hbad, if_neg hstop] at h ⊢
          simp only at h ⊢
          cases j with
          | zero =>
            rw [Nat.add_zero, hp] at he
            simp at he
          | succ j' =>
            apply ih (i + 1) (acc ++ pg.reviews) j'
            · omega
            · rw [show i + 1 + j' = i + (j' + 1) by omega]
              exact he

/-- C8: if any page request inside the loop fails with a thrown error,
fetchReviews fails as a whole with the single user-facing message; the
reviews accumulated from earlier pages are discarded (the error result
carries no reviews). -/
theorem fetchReviews_abort_discards (pages : Nat → Except Unit ReviewPage)
    (limit : Nat) :
    ∀ i, i < (fetchReviews pages limit).2 → pages i = .error () →
      (fetchReviews pages limit).1 = .error reviewsErrMsg := by
  intro i h he
  exact fetchReviewsGo_error pages limit _ 0 [] i h (by simpa using he)

/-- An oracle whose first page is full and whose second request throws. -/
def pagesErr : Nat → Except Unit ReviewPage := fun i =>
  if i = 0 then .ok pageFull else .error ()

/-- Witness for C8: with a full first page and a failing second request
at limit 300, the call fails with the user-facing message even though
100 reviews had been accumulated. -/
theorem fetchReviews_abort_discards_witness :
    (fetchReviews pagesErr 300).1 = .error reviewsErrMsg :=
  fetchReviews_abort_discards pagesErr 300 1 (by decide) (by rfl)

/-- Pages bounded by the requested page size bound the final list. -/
theorem fetchReviewsGo_length_le (pages : Nat → Except Unit ReviewPage)
    (limit : Nat)
    (hb : ∀ i pg, pages i = .ok pg → pg.reviews.length ≤ 100) :
    ∀ budget i acc l, (fetchReviewsGo pages limit i budget acc).1 = .ok l →
      l.length ≤ acc.length + budget * 100 := by
  intro budget
  induction budget with
  | zero =>
    intro i acc l h
    simp only [fetchReviewsGo] at h
    cases h
    simp
  | succ b ih =>
    intro i acc l h
    cases hp : pages i with
    | error e =>
      simp [fetchReviewsGo, hp] at h
    | ok pg =>
      have hlen := hb i pg hp
      by_cases hbad : (pg.success != 1 || pg.reviews.isEmpty) = true
      · simp only [fetchReviewsGo, hp] at h
        rw [if_pos hbad] at h
        simp only [Except.ok.injEq] at h
        subst h
        omega
      · by_cases hstop : limit ≤ (acc ++ pg.reviews).length
        · simp only [fetchReviewsGo, hp] at h
          rw [if_neg hbad, if_pos hstop] at h
          simp only [Except.ok.injEq] at h
          subst h
          rw [List.length_append]
          omega
        · simp only [fetchReviewsGo, hp] at h
          rw [if_neg hbad, if_neg hstop] at h
          simp only at h
          have := ih (i + 1) (acc ++ pg.reviews) l h
          rw [List.length_append] at this
          omega

set_option maxRecDepth 8000 in
/-- C10: fetchReviews appends each fetched page in full before checking
the limit, so under the fixed page size of 100 the returned list can
exceed the limit but never ceil(limit / 100) * 100 reviews; at limit
250 over full pages it returns exactly 300 reviews, more than the
limit. -/
theorem fetchReviews_overshoot_bound :
    (∀ (pages : Nat → Except Unit ReviewPage) (limit : Nat)
       (l : List SteamReview),
      (∀ i pg, pages i = .ok pg → pg.reviews.length ≤ 100) →
      (fetchReviews pages limit).1 = .ok l →
      l.length ≤ ((limit + 99) / 100) * 100) ∧
    ((fetchReviews pages150 250).1 = .ok (List.replicate 300 rDummy) ∧
      250 < (List.replicate 300 rDummy).length) := by
  constructor
  · intro pages limit l hb h
    have := fetchReviewsGo_length_le pages limit hb _ 0 [] l h
    simpa using this
  · exact ⟨rfl, by simp⟩

set_option maxRecDepth 8000 in
/-- Witness for C10: the length bound applied to the full-page oracle at
limit 250. -/
theorem fetchReviews_overshoot_bound_witness :
    (List.replicate 300 rDummy).length ≤ ((250 + 99) / 100) * 100 :=
  fetchReviews_overshoot_bound.1 pages150 250 (List.replicate 300 rDummy)
    (by
      intro i pg h
      simp only [pages150] at h
      injection h with h2
      rw [← h2]
      simp [pageFull])
    (by rfl)
